import Mathlib

/-!
Verification of the training script `train.py` of the yolov3customtraining
repository, as a shallow embedding: pure fragments of the script become Lean
functions, loop state is passed explicitly, machine floats are modelled as
rationals, and fallible operations (out-of-range tuple indexing) return
`Option`.  Randomness (the mutation factors drawn from `np.random.randn`) and
the external collaborators (the `test.test` evaluator, the data loader) are
modelled as explicit function parameters.
-/

/-- The hyperparameter record: the dict `hyp` at the top of `train.py`,
with its nine keys in insertion order. -/
structure Hyp where
  xy : ℚ
  wh : ℚ
  cls : ℚ
  conf : ℚ
  iou_t : ℚ
  lr0 : ℚ
  lrf : ℚ
  momentum : ℚ
  weight_decay : ℚ
deriving DecidableEq, Repr

/-- The initial hyperparameter dict literal of `train.py` (lines 15-24):
xy 0.5, wh 0.0625, cls 0.0625, conf 4, iou_t 0.1, lr0 0.0001, lrf -5,
momentum 0.9, weight_decay 0.0005. -/
def hyp0 : Hyp :=
  { xy := 1/2
    wh := 1/16
    cls := 1/16
    conf := 4
    iou_t := 1/10
    lr0 := 1/10000
    lrf := -5
    momentum := 9/10
    weight_decay := 1/2000 }

/-- `np.clip(x, lo, hi)`: apply the lower bound first, then the upper bound. -/
def npClip (x lo hi : ℚ) : ℚ := min (max x lo) hi

/-- The mutation step of the evolution loop (train.py lines 340-342):
`hyp[k] = hyp[k] * float(x)` for each key `k` in insertion order, where the
multiplicative factor `x = (np.random.randn(1) * s[i] + 1) ** 1.1` is random;
the nine drawn factors are the explicit argument `m`. -/
def mutate (h : Hyp) (m : Fin 9 → ℚ) : Hyp :=
  { xy := h.xy * m 0
    wh := h.wh * m 1
    cls := h.cls * m 2
    conf := h.conf * m 3
    iou_t := h.iou_t * m 4
    lr0 := h.lr0 * m 5
    lrf := h.lrf * m 6
    momentum := h.momentum * m 7
    weight_decay := h.weight_decay * m 8 }

/-- The clip-to-limits step of the evolution loop (train.py lines 344-348):
`keys = ['iou_t', 'momentum', 'weight_decay']`,
`limits = [(0, 0.90), (0.75, 0.95), (0, 0.01)]`,
`hyp[k] = np.clip(hyp[k], v[0], v[1])`. -/
def clipHyp (h : Hyp) : Hyp :=
  { h with
    iou_t := npClip h.iou_t 0 (90/100)
    momentum := npClip h.momentum (75/100) (95/100)
    weight_decay := npClip h.weight_decay 0 (1/100) }

/-- The tuple returned by the evaluator `test.test` as used by the script:
`results` holds P, R, mAP, F1 and the validation loss (`results[:5]`);
`results[2]` (mAP) is the evolution fitness, `results[4]` the test loss. -/
structure Res where
  p : ℚ
  r : ℚ
  mAP : ℚ
  f1 : ℚ
  testLoss : ℚ
deriving DecidableEq, Repr

/-- `print_mutation` (train.py lines 277-284): open `evolve.txt` in append
mode and write one line holding the results and the full hyperparameter
vector.  The file is a list of lines; a line is the `(hyp, results)` pair it
formats. -/
def print_mutation (file : List (Hyp × Res)) (h : Hyp) (res : Res) :
    List (Hyp × Res) :=
  file ++ [(h, res)]

/-- The mutable state threaded through the evolution loop of `__main__`:
the (global) hyperparameter dict, `best_fitness`, and the contents of
`evolve.txt`. -/
structure EvolveState where
  hyp : Hyp
  bestFitness : ℚ
  evolveFile : List (Hyp × Res)
deriving Repr

/-- One generation of the evolution loop (train.py lines 334-373):
copy `hyp` to `old_hyp`, mutate it by the drawn factors `m`, clip to limits,
retrain (`trainFn`, abstracting the `train(...)` call) on the mutated record,
append the mutation line to `evolve.txt`, and keep the mutated record exactly
when `mutation_fitness > best_fitness`, restoring `old_hyp` otherwise.
The second component of the result is the hyperparameter record that was
active for the retraining call. -/
def evolveGen (trainFn : Hyp → Res) (st : EvolveState) (m : Fin 9 → ℚ) :
    EvolveState × Hyp :=
  let old_hyp := st.hyp
  let mutated := clipHyp (mutate st.hyp m)
  let results := trainFn mutated
  let mutation_fitness := results.mAP
  let file' := print_mutation st.evolveFile mutated results
  if st.bestFitness < mutation_fitness then
    (⟨mutated, mutation_fitness, file'⟩, mutated)
  else
    (⟨old_hyp, st.bestFitness, file'⟩, mutated)

/-- The evolution loop run over a list of per-generation mutation factors
(`for _ in range(gen)` with `gen = 50` in the script; the length of `ms`
is the number of generations). -/
def evolveRun (trainFn : Hyp → Res) : List (Fin 9 → ℚ) → EvolveState → EvolveState
  | [], st => st
  | m :: rest, st => evolveRun trainFn rest (evolveGen trainFn st m).1

/-- The lines appended to `evolve.txt` by a run of the evolution loop, one
per generation: the mutated-and-clipped record together with its results. -/
def evolveEntries (trainFn : Hyp → Res) :
    List (Fin 9 → ℚ) → EvolveState → List (Hyp × Res)
  | [], _ => []
  | m :: rest, st =>
      (clipHyp (mutate st.hyp m), trainFn (clipHyp (mutate st.hyp m))) ::
        evolveEntries trainFn rest (evolveGen trainFn st m).1

/-- Claim C1: in every generation of the hyperparameter-evolution loop,
exactly one hyperparameter record — the mutated and clipped one — is active
for the retraining call, and after the fitness comparison the mutated record
is kept (with `best_fitness` updated) exactly when the mutation's fitness
`results[2]` is strictly greater than the best fitness so far; otherwise the
record is restored to the copy taken before the mutation and `best_fitness`
is unchanged. -/
theorem c1_evolve_accept_revert (trainFn : Hyp → Res) (st : EvolveState)
    (m : Fin 9 → ℚ) :
    (evolveGen trainFn st m).2 = clipHyp (mutate st.hyp m) ∧
    (evolveGen trainFn st m).1.hyp =
      (if st.bestFitness < (trainFn (clipHyp (mutate st.hyp m))).mAP then
        clipHyp (mutate st.hyp m) else st.hyp) ∧
    (evolveGen trainFn st m).1.bestFitness =
      (if st.bestFitness < (trainFn (clipHyp (mutate st.hyp m))).mAP then
        (trainFn (clipHyp (mutate st.hyp m))).mAP else st.bestFitness) := by
  unfold evolveGen
  by_cases h : st.bestFitness < (trainFn (clipHyp (mutate st.hyp m))).mAP <;>
    simp [h, print_mutation]

/-- Claim C2: after every mutation-and-clip step of the evolution loop,
whatever the pre-mutation record and the drawn mutation factors were, the
clipped keys lie within their fixed ranges: `iou_t` in [0, 0.90],
`momentum` in [0.75, 0.95], `weight_decay` in [0, 0.01]. -/
theorem c2_clip_bounds (h : Hyp) (m : Fin 9 → ℚ) :
    0 ≤ (clipHyp (mutate h m)).iou_t ∧ (clipHyp (mutate h m)).iou_t ≤ 90/100 ∧
    75/100 ≤ (clipHyp (mutate h m)).momentum ∧
      (clipHyp (mutate h m)).momentum ≤ 95/100 ∧
    0 ≤ (clipHyp (mutate h m)).weight_decay ∧
      (clipHyp (mutate h m)).weight_decay ≤ 1/100 := by
  unfold clipHyp mutate npClip
  refine ⟨?_, ?_, ?_, ?_, ?_, ?_⟩ <;>
    simp only [le_min_iff, min_le_iff, le_max_iff, max_le_iff] <;>
    norm_num

/-- Whatever the acceptance decision, one generation appends exactly the
mutation line to `evolve.txt`. -/
lemma evolveGen_file (trainFn : Hyp → Res) (st : EvolveState) (m : Fin 9 → ℚ) :
    (evolveGen trainFn st m).1.evolveFile =
      st.evolveFile ++ [(clipHyp (mutate st.hyp m),
        trainFn (clipHyp (mutate st.hyp m)))] := by
  by_cases h : st.bestFitness < (trainFn (clipHyp (mutate st.hyp m))).mAP <;>
    simp [evolveGen, h, print_mutation]

/-- Claim C6: in every generation of the evolution loop, accepted or
rejected, exactly one line (the full hyperparameter vector with its results)
is appended to `evolve.txt`, and the file is opened in append mode, so after
any run the previous contents are an unchanged prefix: the final file is the
initial file followed by exactly one new line per generation. -/
theorem c6_evolve_log_append (trainFn : Hyp → Res) (ms : List (Fin 9 → ℚ))
    (st : EvolveState) (m : Fin 9 → ℚ) :
    (evolveGen trainFn st m).1.evolveFile =
      st.evolveFile ++ [(clipHyp (mutate st.hyp m),
        trainFn (clipHyp (mutate st.hyp m)))] ∧
    (evolveRun trainFn ms st).evolveFile =
      st.evolveFile ++ evolveEntries trainFn ms st ∧
    (evolveEntries trainFn ms st).length = ms.length := by
  refine ⟨evolveGen_file trainFn st m, ?_, ?_⟩
  · induction ms generalizing st with
    | nil => simp [evolveRun, evolveEntries]
    | cons m' rest ih =>
        rw [evolveRun, evolveEntries, ih, evolveGen_file]
        simp
  · induction ms generalizing st with
    | nil => simp [evolveEntries]
    | cons m' rest ih => rw [evolveEntries]; simp [ih]

/-- The initial `results` tuple of `train` (train.py line 153):
`results = (0, 0, 0, 0, 0)  # P, R, mAP, F1, test_loss`. -/
def initRes : Res := ⟨0, 0, 0, 0, 0⟩

/-- Scan of the batch loop of an epoch for the first batch whose computed
loss is NaN (`torch.isnan(loss)`, train.py line 192): starting at batch
index `i` with `fuel` batches left, return the first index with a NaN loss,
if any.  `nan` is the per-batch NaN predicate for this epoch, abstracting
the data, the model and `compute_loss`. -/
def firstNaNBatch (nan : ℕ → Bool) : ℕ → ℕ → Option ℕ
  | _, 0 => none
  | i, k + 1 => if nan i then some i else firstNaNBatch nan (i + 1) k

/-- How a call to `train` ends: either the epoch loop completes and the
final `results` are returned (line 274), or a NaN loss is detected at some
(epoch, batch) and the current `results` are returned at once (line 194). -/
inductive TrainOutcome
  | completed (results : Res)
  | nanAbort (epoch batch : ℕ) (results : Res)
deriving DecidableEq, Repr

/-- The epoch loop of `train` (train.py lines 158-270) restricted to the
state the NaN detector touches: per epoch, run the batch loop (lines
172-221); if some batch's loss is NaN, return the current `results`
immediately (lines 192-194), abandoning all remaining batches and epochs;
otherwise finish the epoch and, when the test condition of line 224 holds
(`testAt`), replace `results` by that epoch's validation results
(`evalAt`, abstracting `test.test`).  Arguments: current epoch, remaining
epochs, current `results`. -/
def trainLoop (nanAt : ℕ → ℕ → Bool) (testAt : ℕ → Bool) (evalAt : ℕ → Res)
    (nb : ℕ) : ℕ → ℕ → Res → TrainOutcome
  | _, 0, res => .completed res
  | e, k + 1, res =>
      match firstNaNBatch (nanAt e) 0 nb with
      | some i => .nanAbort e i res
      | none => trainLoop nanAt testAt evalAt nb (e + 1) k
          (if testAt e then evalAt e else res)

/-- A full (non-resumed) call to `train`: epoch loop from epoch 0 with the
initial zero `results`. -/
def trainRun (nanAt : ℕ → ℕ → Bool) (testAt : ℕ → Bool) (evalAt : ℕ → Res)
    (nb epochs : ℕ) : TrainOutcome :=
  trainLoop nanAt testAt evalAt nb 0 epochs initRes

/-- The value of the `results` variable at the start of epoch `e` of a
non-resumed `train` call: the initial zeros, updated by each earlier epoch
that ran validation. -/
def resBefore (testAt : ℕ → Bool) (evalAt : ℕ → Res) : ℕ → Res
  | 0 => initRes
  | e + 1 => if testAt e then evalAt e else resBefore testAt evalAt e

/-- Concrete NaN schedule for the C3 counterexample: the loss is NaN
exactly in epoch 2. -/
def c3nan : ℕ → ℕ → Bool := fun e _ => e == 2

/-- Concrete validation results for the C3 counterexample: epoch 0 scores
mAP 0.5 with test loss 0.1; later epochs score mAP 0.4 with test loss 0.2. -/
def c3eval : ℕ → Res := fun e =>
  if e == 0 then ⟨0, 0, 1/2, 0, 1/10⟩ else ⟨0, 0, 2/5, 0, 1/5⟩

/-- Claim C3 counterexample: `train` does NOT return the best metrics
gathered so far when a NaN loss is detected — it returns the most recent
`results`.  Concretely, with validation run every epoch, epoch 0 scoring
mAP 0.5 (test loss 0.1), epoch 1 scoring mAP 0.4 (test loss 0.2), and a NaN
loss in epoch 2, the call returns the epoch-1 metrics (mAP 0.4, loss 0.2),
although the gathered epoch-0 metrics are strictly better on both the mAP
and the test-loss ordering. -/
theorem c3_counterexample :
    trainRun c3nan (fun _ => true) c3eval 2 5 =
      .nanAbort 2 0 ⟨0, 0, 2/5, 0, 1/5⟩ ∧
    c3eval 0 = ⟨0, 0, 1/2, 0, 1/10⟩ ∧
    (2/5 : ℚ) < 1/2 ∧ (1/10 : ℚ) < 1/5 := by
  refine ⟨rfl, rfl, by norm_num, by norm_num⟩

/-- If every batch of every epoch in `[e0, e)` has a finite loss, the scan
of such an epoch finds no NaN. -/
lemma firstNaNBatch_none (nan : ℕ → Bool) :
    ∀ fuel start, (∀ j, start ≤ j → j < start + fuel → nan j = false) →
      firstNaNBatch nan start fuel = none := by
  intro fuel
  induction fuel with
  | zero => intro start _; rfl
  | succ k ih =>
      intro start h
      rw [firstNaNBatch]
      rw [h start le_rfl (by omega)]
      simp only [Bool.false_eq_true, if_false]
      exact ih (start + 1) (fun j hj hj' => h j (by omega) (by omega))

/-- The scan finds exactly the first NaN batch. -/
lemma firstNaNBatch_some (nan : ℕ → Bool) :
    ∀ fuel start i, start ≤ i → i < start + fuel → nan i = true →
      (∀ j, start ≤ j → j < i → nan j = false) →
      firstNaNBatch nan start fuel = some i := by
  intro fuel
  induction fuel with
  | zero => intro start i h1 h2; omega
  | succ k ih =>
      intro start i h1 h2 h3 h4
      rw [firstNaNBatch]
      rcases Nat.eq_or_lt_of_le h1 with h | h
      · rw [← h] at h3
        rw [h3]
        simp [h]
      · rw [h4 start le_rfl h]
        simp only [Bool.false_eq_true, if_false]
        exact ih (start + 1) i h (by omega) h3
          (fun j hj hj' => h4 j (by omega) hj')

/-- From any epoch `e0` at which the `results` variable holds its correct
running value, the loop aborts at the first NaN epoch `e` with the
`results` gathered before `e`. -/
lemma trainLoop_abort (nanAt : ℕ → ℕ → Bool) (testAt : ℕ → Bool)
    (evalAt : ℕ → Res) (nb e i : ℕ) :
    ∀ fuel e0, e0 ≤ e → e < e0 + fuel →
      (∀ e', e0 ≤ e' → e' < e → ∀ i', i' < nb → nanAt e' i' = false) →
      firstNaNBatch (nanAt e) 0 nb = some i →
      trainLoop nanAt testAt evalAt nb e0 fuel (resBefore testAt evalAt e0) =
        .nanAbort e i (resBefore testAt evalAt e) := by
  intro fuel
  induction fuel with
  | zero => intro e0 h1 h2; omega
  | succ k ih =>
      intro e0 h1 h2 hquiet hfirst
      rw [trainLoop]
      rcases Nat.eq_or_lt_of_le h1 with h | h
      · subst h
        rw [hfirst]
      · have hnone : firstNaNBatch (nanAt e0) 0 nb = none :=
          firstNaNBatch_none (nanAt e0) nb 0
            (fun j _ hj => hquiet e0 le_rfl h j (by omega))
        rw [hnone]
        have hres : (if testAt e0 then evalAt e0
            else resBefore testAt evalAt e0) =
            resBefore testAt evalAt (e0 + 1) := by
          rw [resBefore]
        rw [hres]
        exact ih (e0 + 1) h (by omega)
          (fun e' he' he'' i' hi' => hquiet e' (by omega) he'' i' hi')
          hfirst

/-- Claim C3 (amended): for every batch of every epoch of `train`, if the
computed loss is NaN — with (e, i) the first such epoch and batch — the call
returns immediately from that batch with the most recently gathered
metrics (the last completed validation's results, or the initial zeros),
abandoning the remaining batches and epochs; this NaN check is the only
early exit of the loop. -/
theorem c3_nan_abort (nanAt : ℕ → ℕ → Bool) (testAt : ℕ → Bool)
    (evalAt : ℕ → Res) (nb epochs e i : ℕ)
    (he : e < epochs) (hi : i < nb) (hnan : nanAt e i = true)
    (hfe : ∀ e', e' < e → ∀ i', i' < nb → nanAt e' i' = false)
    (hfi : ∀ i', i' < i → nanAt e i' = false) :
    trainRun nanAt testAt evalAt nb epochs =
      .nanAbort e i (resBefore testAt evalAt e) := by
  have hfirst : firstNaNBatch (nanAt e) 0 nb = some i :=
    firstNaNBatch_some (nanAt e) nb 0 i (Nat.zero_le i) (by omega) hnan
      (fun j _ hj => hfi j hj)
  exact trainLoop_abort nanAt testAt evalAt nb e i epochs 0 (Nat.zero_le e)
    (by omega) (fun e' _ he' i' hi' => hfe e' he' i' hi') hfirst

/-- Witness for C3 (amended): a NaN loss at epoch 1, batch 1 of a 4-epoch,
3-batch run aborts there with the epoch-0 validation results. -/
theorem c3_nan_abort_witness :
    (1 : ℕ) < 4 ∧ (1 : ℕ) < 3 ∧
    (fun e i => e == 1 && i == 1 : ℕ → ℕ → Bool) 1 1 = true ∧
    (∀ e', e' < 1 → ∀ i', i' < 3 →
      (fun e i => e == 1 && i == 1 : ℕ → ℕ → Bool) e' i' = false) ∧
    (∀ i', i' < 1 →
      (fun e i => e == 1 && i == 1 : ℕ → ℕ → Bool) 1 i' = false) ∧
    trainRun (fun e i => e == 1 && i == 1) (fun _ => true)
        (fun e => ⟨0, 0, (e : ℚ) + 1, 0, 0⟩) 3 4 =
      .nanAbort 1 1 (resBefore (fun _ => true)
        (fun e => ⟨0, 0, (e : ℚ) + 1, 0, 0⟩) 1) :=
  ⟨by decide, by decide, by decide, by decide, by decide,
    c3_nan_abort (fun e i => e == 1 && i == 1) (fun _ => true)
      (fun e => ⟨0, 0, (e : ℚ) + 1, 0, 0⟩) 3 4 1 1
      (by decide) (by decide) (by decide) (by decide) (by decide)⟩

/-- The epoch-bookkeeping fields of a checkpoint file as saved by `train`
(train.py lines 246-251) and read back on resume. -/
structure Chkpt where
  epoch : ℕ
  best_loss : ℚ
  best_bird_map : ℚ
deriving DecidableEq, Repr

/-- The starting epoch computed by `train` (train.py lines 77 and 81-93):
0 when not resuming; when resuming, `chkpt['epoch'] + 1` where `chkpt` is
the transfer checkpoint (`yolov3-spp.pt`) under `transfer` and otherwise
the latest checkpoint (`latest.pt`). -/
def start_epoch (resume transfer : Bool) (chkptSpp chkptLatest : Chkpt) : ℕ :=
  if resume then
    (if transfer then chkptSpp.epoch else chkptLatest.epoch) + 1
  else 0

/-- The epoch indices visited by the epoch loop
`for epoch in range(start_epoch, epochs)` (train.py line 158). -/
def epochRange (startEpoch epochs : ℕ) : List ℕ :=
  (List.range (epochs - startEpoch)).map (fun k => startEpoch + k)

/-- Claim C4: when `train` is called with `resume = True` and
`transfer = False`, the starting epoch of the training loop is the epoch
stored in the loaded latest checkpoint plus one; hence every epoch the
resumed loop visits is strictly greater than the saved epoch, so the epoch
counter is monotonic across resume boundaries. -/
theorem c4_resume_start_epoch (transfer : Bool) (chkptSpp chkptLatest : Chkpt)
    (epochs e : ℕ) (ht : transfer = false)
    (he : e ∈ epochRange (start_epoch true transfer chkptSpp chkptLatest) epochs) :
    start_epoch true transfer chkptSpp chkptLatest = chkptLatest.epoch + 1 ∧
    chkptLatest.epoch < e := by
  subst ht
  have hs : start_epoch true false chkptSpp chkptLatest =
      chkptLatest.epoch + 1 := by
    unfold start_epoch
    simp
  refine ⟨hs, ?_⟩
  rw [hs] at he
  unfold epochRange at he
  simp only [List.mem_map, List.mem_range] at he
  obtain ⟨k, _, hk⟩ := he
  omega

/-- Witness for C4: resuming from a checkpoint saved at epoch 7 starts the
loop at epoch 8, and every visited epoch exceeds 7. -/
theorem c4_resume_start_epoch_witness :
    false = false ∧
    8 ∈ epochRange (start_epoch true false ⟨3, 0, 0⟩ ⟨7, 0, 0⟩) 10 ∧
    (start_epoch true false ⟨3, 0, 0⟩ ⟨7, 0, 0⟩ = 7 + 1 ∧ 7 < 8) :=
  ⟨rfl, by decide,
    c4_resume_start_epoch false ⟨3, 0, 0⟩ ⟨7, 0, 0⟩ 10 8 rfl (by decide)⟩

/-- The burn-in learning rate of epoch 0 (train.py lines 182-183): for
batch index `i ≤ n_burnin`, `lr = hyp['lr0'] * (i / n_burnin) ** 4`,
with the script's `lr0 = 0.0001`. -/
def burninLR (i n_burnin : ℕ) : ℚ :=
  hyp0.lr0 * ((i : ℚ) / (n_burnin : ℚ)) ^ 4

/-- Setting the burn-in rate on the optimizer (train.py lines 184-185):
`for x in optimizer.param_groups: x['lr'] = lr` — every group's learning
rate becomes `lr`. -/
def setGroupLR (groups : List ℚ) (lr : ℚ) : List ℚ :=
  groups.map (fun _ => lr)

/-- Claim C5: during epoch 0, for batch indices in `0..n_burnin`, the
learning rate applied to every optimizer parameter group is
`lr0 * (i / n_burnin) ^ 4`: it is 0 at batch 0, strictly increases between
any two indices `i < j ≤ n_burnin`, and equals the base rate `lr0` at
batch `n_burnin`; after the assignment, every parameter group carries
exactly this rate. -/
theorem c5_burnin_lr (n_burnin i j : ℕ) (groups : List ℚ) (g : ℚ)
    (hn : 0 < n_burnin) (hij : i < j) (hjn : j ≤ n_burnin)
    (hg : g ∈ setGroupLR groups (burninLR i n_burnin)) :
    burninLR 0 n_burnin = 0 ∧
    burninLR i n_burnin < burninLR j n_burnin ∧
    burninLR n_burnin n_burnin = hyp0.lr0 ∧
    g = burninLR i n_burnin := by
  have hnq : (0 : ℚ) < (n_burnin : ℚ) := by exact_mod_cast hn
  refine ⟨?_, ?_, ?_, ?_⟩
  · unfold burninLR
    norm_num
  · unfold burninLR
    have hbase : ((i : ℚ) / n_burnin) < ((j : ℚ) / n_burnin) := by
      apply div_lt_div_of_pos_right _ hnq
      exact_mod_cast hij
    have hnn : (0 : ℚ) ≤ (i : ℚ) / n_burnin :=
      div_nonneg (Nat.cast_nonneg i) (le_of_lt hnq)
    have hpow : ((i : ℚ) / n_burnin) ^ 4 < ((j : ℚ) / n_burnin) ^ 4 :=
      pow_lt_pow_left hbase hnn (by norm_num)
    have hlr0 : (0 : ℚ) < hyp0.lr0 := by
      unfold hyp0
      norm_num
    exact mul_lt_mul_of_pos_left hpow hlr0
  · unfold burninLR
    rw [div_self (ne_of_gt hnq)]
    norm_num
  · unfold setGroupLR at hg
    simp only [List.mem_map] at hg
    obtain ⟨_, _, hgeq⟩ := hg
    exact hgeq.symm

/-- The test condition of train.py line 224:
`if not (opt.notest or (opt.nosave and epoch < 5)) or epoch == epochs - 1`
— validation runs unless skipped by the no-test flag or, below epoch 5,
by the no-save flag; the final epoch is always tested. -/
def testCond (notest nosave : Bool) (epoch epochs : ℕ) : Bool :=
  !(notest || (nosave && decide (epoch < 5))) || (epoch == epochs - 1)

/-- The raw `results` tuple as the epoch-results writer sees it: a Python
tuple of values, indexed positionally.  The initial value is the 5-tuple of
train.py line 153; tuples returned by `test.test` must have at least 7
elements, since lines 231 and 233 read `results[5]` and `results[6]`. -/
def initResultsTuple : List ℚ := [0, 0, 0, 0, 0]

/-- The epoch-results write of train.py lines 230-231:
`file.write(s + '%11.3g' * 5 % results[:5] + '  ' + results[5] + '\n')` in
append mode.  Formatting `results[:5]` takes the first five elements;
reading `results[5]` raises IndexError — modelled as `none`, in which case
no line is appended — whenever the tuple has no index 5.  A written line is
the pair of the five formatted values and the sixth element. -/
def writeEpochResults (file : List (List ℚ × ℚ)) (results : List ℚ) :
    Option (List (List ℚ × ℚ)) :=
  match results.get? 5 with
  | none => none
  | some v => some (file ++ [(results.take 5, v)])

/-- Claim C7 (code bug): the epoch-results write is meant to append exactly
one line per completed epoch, including epochs whose validation was skipped
— but on any epoch where testing is skipped before a first validation has
run (for example epoch 0 of an `--evolve` run, where `notest` and `nosave`
are forced on), `results` is still the initial 5-tuple and the write of
line 231 reads `results[5]`, which raises IndexError: no line is appended
and the process dies.  With a 7-element tuple from `test.test` the same
write does append exactly one line. -/
theorem c7_epoch_log_crash :
    testCond true true 0 10 = false ∧
    writeEpochResults [] initResultsTuple = none ∧
    writeEpochResults [] [1, 2, 3, 4, 5, 6, 7] =
      some [([1, 2, 3, 4, 5], 6)] := by
  refine ⟨by decide, rfl, rfl⟩

/-- Which checkpoint files an epoch writes (train.py lines 253-261). -/
structure CkptWrites where
  latest : Bool
  best : Bool
  bestMap : Bool
deriving DecidableEq, Repr

/-- The end-of-epoch checkpoint bookkeeping of train.py lines 233-261:
update `best_bird_map` if this epoch's `bird_map` is smaller (lines
233-235), update `best_loss` if this epoch's `test_loss` is smaller (lines
238-240); then, when saving is enabled, write `latest.pt`, write `best.pt`
exactly when `best_loss == test_loss`, and write `best_bird_map.pt` exactly
when `best_bird_map == bird_map`.  Returns the updated `best_loss`, the
updated `best_bird_map`, and the set of files written. -/
def epochCheckpoint (save : Bool) (best_loss best_bird_map test_loss bird_map : ℚ) :
    ℚ × ℚ × CkptWrites :=
  let bb' := if bird_map < best_bird_map then bird_map else best_bird_map
  let bl' := if test_loss < best_loss then test_loss else best_loss
  (bl', bb',
    if save then ⟨true, decide (bl' = test_loss), decide (bb' = bird_map)⟩
    else ⟨false, false, false⟩)

/-- Claim C8: in every epoch where saving is enabled, `best.pt` is written
if and only if the epoch's validation test loss equals the updated running
minimum of test losses, and `best_bird_map.pt` is written if and only if
the epoch's `bird_map` equals the updated running minimum of `bird_map`
values; the updated trackers are exactly those running minima, and the two
selection criteria depend on disjoint inputs, so the two files stay
distinct. -/
theorem c8_best_checkpoint_selection (save : Bool)
    (best_loss best_bird_map test_loss bird_map : ℚ) :
    (epochCheckpoint save best_loss best_bird_map test_loss bird_map).1 =
      min best_loss test_loss ∧
    (epochCheckpoint save best_loss best_bird_map test_loss bird_map).2.1 =
      min best_bird_map bird_map ∧
    ((epochCheckpoint save best_loss best_bird_map test_loss bird_map).2.2.best
        = true ↔
      (save = true ∧ test_loss = min best_loss test_loss)) ∧
    ((epochCheckpoint save best_loss best_bird_map test_loss
        bird_map).2.2.bestMap = true ↔
      (save = true ∧ bird_map = min best_bird_map bird_map)) := by
  have hl : (if test_loss < best_loss then test_loss else best_loss) =
      min best_loss test_loss := by
    by_cases h : test_loss < best_loss
    · simp [h, min_eq_right (le_of_lt h)]
    · simp [h, min_eq_left (not_lt.mp h)]
  have hb : (if bird_map < best_bird_map then bird_map else best_bird_map) =
      min best_bird_map bird_map := by
    by_cases h : bird_map < best_bird_map
    · simp [h, min_eq_right (le_of_lt h)]
    · simp [h, min_eq_left (not_lt.mp h)]
  have h1 : (epochCheckpoint save best_loss best_bird_map test_loss
      bird_map).1 = (if test_loss < best_loss then test_loss else best_loss) :=
    rfl
  have h2 : (epochCheckpoint save best_loss best_bird_map test_loss
      bird_map).2.1 =
      (if bird_map < best_bird_map then bird_map else best_bird_map) := rfl
  have h3 : (epochCheckpoint save best_loss best_bird_map test_loss
      bird_map).2.2 =
      (if save then
        ⟨true,
          decide ((if test_loss < best_loss then test_loss else best_loss) =
            test_loss),
          decide ((if bird_map < best_bird_map then bird_map else
            best_bird_map) = bird_map)⟩
      else (⟨false, false, false⟩ : CkptWrites)) := rfl
  refine ⟨h1.trans hl, h2.trans hb, ?_, ?_⟩ <;> rw [h3] <;> cases save
  · simp
  · simp [hl, eq_comm]
  · simp
  · simp [hb, eq_comm]

/-- The zero vector the mean-loss accumulator is reset to at the start of
each epoch: `mloss = torch.zeros(5)` (train.py line 171). -/
def mlossInit : Fin 5 → ℚ := fun _ => 0

/-- The running-mean update of train.py line 209, elementwise on the
5-vector: `mloss = (mloss * i + loss_items) / (i + 1)`. -/
def mlossStep (mloss : Fin 5 → ℚ) (i : ℕ) (loss_items : Fin 5 → ℚ) :
    Fin 5 → ℚ :=
  fun k => (mloss k * (i : ℚ) + loss_items k) / ((i : ℚ) + 1)

/-- The accumulator after the batch loop has processed batches `0..i` of an
epoch, starting from the zero vector: `losses j` is batch `j`'s
`loss_items` vector. -/
def mlossAfter (losses : ℕ → Fin 5 → ℚ) : ℕ → Fin 5 → ℚ
  | 0 => mlossStep mlossInit 0 (losses 0)
  | i + 1 => mlossStep (mlossAfter losses i) (i + 1) (losses (i + 1))

/-- Claim C9: the mean-loss accumulator starts every epoch at zero, and
after processing batch `i` each of its components equals the arithmetic
mean of the corresponding `loss_items` components over batches `0..i`: the
update `(mloss * i + loss_items) / (i + 1)` computes a running mean. -/
theorem c9_mloss_running_mean (losses : ℕ → Fin 5 → ℚ) (i : ℕ) (k : Fin 5) :
    mlossInit k = 0 ∧
    mlossAfter losses i k =
      (∑ j ∈ Finset.range (i + 1), losses j k) / ((i : ℚ) + 1) := by
  refine ⟨rfl, ?_⟩
  induction i with
  | zero =>
      rw [mlossAfter, mlossStep]
      simp [mlossInit, Finset.sum_range_one]
  | succ i ih =>
      rw [mlossAfter, mlossStep, ih]
      have h1 : ((i : ℚ) + 1) ≠ 0 := by positivity
      push_cast
      rw [div_mul_cancel₀ _ h1]
      conv_rhs => rw [Finset.sum_range_succ]

/-- The optimizer-step condition of train.py line 204:
`if (i + 1) % accumulate == 0 or (i + 1) == nb`. -/
def optStepCond (accumulate nb i : ℕ) : Bool :=
  (i + 1) % accumulate == 0 || (i + 1) == nb

/-- One batch of the gradient-accumulation protocol (train.py lines
201-206) on the state (accumulated gradient, number of optimizer steps
taken): `loss.backward()` adds the batch gradient `g`; then, exactly under
`optStepCond`, `optimizer.step()` is taken and `optimizer.zero_grad()`
clears the accumulated gradient. -/
def batchGradStep (accumulate nb i : ℕ) (g : ℚ) (st : ℚ × ℕ) : ℚ × ℕ :=
  let grad := st.1 + g
  if optStepCond accumulate nb i then (0, st.2 + 1) else (grad, st.2)

/-- Claim C10: within an epoch of `nb` batches, the optimizer step (with
the gradient zeroed immediately after) runs after batch `i` exactly when
`i + 1` is a multiple of `accumulate` or `i` is the last batch; on all
other batches the gradient keeps accumulating and the optimizer state is
untouched. -/
theorem c10_grad_accumulation (accumulate nb i : ℕ) (g : ℚ) (st : ℚ × ℕ)
    (ha : 0 < accumulate) (hi : i < nb) :
    (optStepCond accumulate nb i = true ↔
      (accumulate ∣ (i + 1) ∨ i = nb - 1)) ∧
    batchGradStep accumulate nb i g st =
      (if optStepCond accumulate nb i then (0, st.2 + 1)
        else (st.1 + g, st.2)) := by
  constructor
  · unfold optStepCond
    simp only [Bool.or_eq_true, beq_iff_eq]
    constructor
    · rintro (h | h)
      · exact Or.inl (Nat.dvd_of_mod_eq_zero h)
      · right; omega
    · rintro (h | h)
      · left
        obtain ⟨c, hc⟩ := h
        rw [hc]
        exact Nat.mul_mod_right accumulate c
      · right; omega
  · unfold batchGradStep
    split <;> rfl

/-- Witness for C10: with `accumulate = 2` in a 5-batch epoch, batch 3
steps the optimizer (4 is a multiple of 2) and the state update matches. -/
theorem c10_grad_accumulation_witness :
    (0 : ℕ) < 2 ∧ (3 : ℕ) < 5 ∧
    ((optStepCond 2 5 3 = true ↔ ((2 : ℕ) ∣ (3 + 1) ∨ (3 : ℕ) = 5 - 1)) ∧
      batchGradStep 2 5 3 (1 : ℚ) ((2 : ℚ), (0 : ℕ)) =
        (if optStepCond 2 5 3 then ((0 : ℚ), (0 : ℕ) + 1)
          else ((2 : ℚ) + 1, (0 : ℕ)))) :=
  ⟨by decide, by decide,
    c10_grad_accumulation 2 5 3 1 (2, 0) (by decide) (by decide)⟩

/-- Witness for C5: with `n_burnin = 4` and two parameter groups, the
burn-in rate starts at 0, increases from batch 1 to batch 2, reaches `lr0`
at batch 4, and every group carries the assigned rate. -/
theorem c5_burnin_lr_witness :
    (0 : ℕ) < 4 ∧ (1 : ℕ) < 2 ∧ (2 : ℕ) ≤ 4 ∧
    burninLR 1 4 ∈ setGroupLR [1, 2] (burninLR 1 4) ∧
    (burninLR 0 4 = 0 ∧ burninLR 1 4 < burninLR 2 4 ∧
      burninLR 4 4 = hyp0.lr0 ∧ burninLR 1 4 = burninLR 1 4) :=
  ⟨by norm_num, by norm_num, by norm_num, by simp [setGroupLR],
    c5_burnin_lr 4 1 2 [1, 2] (burninLR 1 4) (by norm_num) (by norm_num)
      (by norm_num) (by simp [setGroupLR])⟩
